import Mathlib

/-!
# Slot rotation in the audiomixer reproduction (`src/main.c`)

A shallow embedding of `event_probe_cb`, `setup_thread` and the start-up part of
`main`, together with the properties of the slot-rotation controller.

Modelling conventions.

* C `int` fields (`thread_num`, `passed_buffers`) hold integers.  The only
  arithmetic of the program is the product `thread_num * PASS_BUFFERS` and
  `passed_buffers++`.  The product is `int_mul`: the 32-bit product of the compiled
  program, equal to the mathematical product exactly when that fits an `int` (C
  leaves the overflowing product undefined; the machine multiplication wraps).  The
  increment is guarded by `passed_buffers < thread_num * PASS_BUFFERS`, so it never
  leaves the range of `int`.
* GStreamer objects are identified by handles (`GstElement`, `GstPad`).  The
  GStreamer library itself is not part of the repository; the calls the program
  makes are modelled on a state `Gst` that keeps the mixer's live request pads, the
  pad links, the installed probes, and the trace of calls in program order.
* `thread_data[NUM_THREADS]` is a list; the pointer `&thread_data[k]` is the index `k`.
-/

namespace Repro

/-! ## Constants and types of `main.c` -/

/-- The constant `NUM_THREADS` (line 6). -/
def NUM_THREADS : Nat := 3

/-- The constant `PASS_BUFFERS` (line 7). -/
def PASS_BUFFERS : Int := 7

/-- The least value of a C `int` (32 bits, two's complement). -/
def INT_MIN : Int := -2147483648

/-- The greatest value of a C `int`. -/
def INT_MAX : Int := 2147483647

/-- The product of two C `int`s as the compiled program computes it: the
mathematical product when it lies in `[INT_MIN, INT_MAX]`, and otherwise the value
in that range congruent to it modulo `2^32`. -/
def int_mul (a b : Int) : Int :=
  (a * b + 2147483648) % 4294967296 - 2147483648

/-- Handles of the elements the program creates.  `audiotestsrc n` is the element
made by `gst_element_factory_make("audiotestsrc", "src_<n>")`. -/
inductive GstElement where
  | pipeline
  | audiomixer
  | fakesink
  | audiotestsrc (thread_num : Int)
  deriving DecidableEq, Repr

/-- Handles of pads: the static `src` / `sink` pad of an element, or a request pad
`sink_%u` handed out by the mixer, identified by a number. -/
inductive GstPad where
  | src (e : GstElement)
  | sink (e : GstElement)
  | request (id : Nat)
  deriving DecidableEq, Repr

/-- The enumeration `GstPadProbeReturn` of GStreamer. -/
inductive GstPadProbeReturn where
  | GST_PAD_PROBE_DROP
  | GST_PAD_PROBE_OK
  | GST_PAD_PROBE_REMOVE
  | GST_PAD_PROBE_PASS
  | GST_PAD_PROBE_HANDLED
  deriving DecidableEq, Repr

/-- The struct `ThreadData` (lines 15-22).  The field `pipeline_data` points to the
one `PipelineData` of `main`; its mixer is the mixer of the state `Gst`. -/
structure ThreadData where
  thread_num : Int
  src : GstElement
  srcpad : GstPad
  currentMixerPad : GstPad
  passed_buffers : Int
  deriving DecidableEq, Repr

/-- One call made to GStreamer, as recorded in the trace. -/
inductive GstCall where
  | bin_add (e : GstElement)
  | element_link (a b : GstElement)
  | release_request_pad (pad : GstPad)
  | pad_unlink (srcpad sinkpad : GstPad)
  | object_unref (pad : GstPad)
  | request_pad_simple (result : GstPad)
  | pad_link (srcpad sinkpad : GstPad)
  | pad_add_probe (pad : GstPad) (user_data : Nat)
  deriving DecidableEq, Repr

/-- The state of the GStreamer objects the program touches. -/
structure Gst where
  /-- Children of the pipeline bin. -/
  bin : List GstElement
  /-- Live request pads (slots) of the mixer. -/
  mixer_pads : List GstPad
  /-- Pad links, as pairs (source pad, sink pad). -/
  links : List (GstPad × GstPad)
  /-- Installed probes: the pad and the `user_data` pointer (index into `thread_data`). -/
  probes : List (GstPad × Nat)
  /-- Every call made so far, oldest first. -/
  calls : List GstCall
  deriving DecidableEq, Repr

/-- The choice of the pad a request returns: the mixer decides it from its whole
state (the trace included), so any deterministic policy is an `Allocator`. -/
abbrev Allocator := Gst → Nat

/-- An allocator never hands out a pad that is live at the moment of the request. -/
def Allocator.Fresh (alloc : Allocator) : Prop :=
  ∀ g : Gst, GstPad.request (alloc g) ∉ g.mixer_pads

/-! ## The GStreamer calls -/

/-- Modelled from the spec: `gst_element_factory_make("audiotestsrc", "src_<n>")` of the
runtime; it returns the handle of the new audio source of that name. -/
def gst_element_factory_make (thread_num : Int) : GstElement :=
  GstElement.audiotestsrc thread_num

/-- Modelled from the spec: `gst_element_get_static_pad(e, "src")` of the runtime; it
returns the output pad of the element. -/
def gst_element_get_static_pad (e : GstElement) : GstPad :=
  GstPad.src e

/-- Modelled from the spec: `gst_bin_add` of the stream-graph runtime (not in the
repository); the element becomes a child of the pipeline. -/
def gst_bin_add (e : GstElement) (g : Gst) : Gst :=
  { g with bin := g.bin ++ [e], calls := g.calls ++ [GstCall.bin_add e] }

/-- Modelled from the spec: `gst_element_link_many(a, b)` of the runtime; it links
the `src` pad of `a` to the `sink` pad of `b`. -/
def gst_element_link_many (a b : GstElement) (g : Gst) : Gst :=
  { g with links := g.links ++ [(GstPad.src a, GstPad.sink b)],
           calls := g.calls ++ [GstCall.element_link a b] }

/-- Modelled from the spec: SlotPool `release(SlotId)`, the call
`gst_element_release_request_pad(mixer, pad)`; the slot stops being live. -/
def gst_element_release_request_pad (pad : GstPad) (g : Gst) : Gst :=
  { g with mixer_pads := g.mixer_pads.erase pad,
           calls := g.calls ++ [GstCall.release_request_pad pad] }

/-- Modelled from the spec: SlotPool `unlink(source_output, SlotId)`, the call
`gst_pad_unlink`; the data path between the two pads is removed. -/
def gst_pad_unlink (srcpad sinkpad : GstPad) (g : Gst) : Gst :=
  { g with links := g.links.erase (srcpad, sinkpad),
           calls := g.calls ++ [GstCall.pad_unlink srcpad sinkpad] }

/-- Modelled from the spec: `gst_object_unref` of the runtime; it drops a reference
and changes nothing of the topology. -/
def gst_object_unref (pad : GstPad) (g : Gst) : Gst :=
  { g with calls := g.calls ++ [GstCall.object_unref pad] }

/-- Modelled from the spec: SlotPool `acquire() -> SlotId`, the call
`gst_element_request_pad_simple(mixer, "sink_%u")`; a new slot becomes live and is
returned (the request always succeeds). -/
def gst_element_request_pad_simple (alloc : Allocator) (g : Gst) : GstPad × Gst :=
  let pad := GstPad.request (alloc g)
  (pad, { g with mixer_pads := g.mixer_pads ++ [pad],
                 calls := g.calls ++ [GstCall.request_pad_simple pad] })

/-- Modelled from the spec: SlotPool `link(source_output, SlotId)`, the call
`gst_pad_link`; the data path between the two pads is established. -/
def gst_pad_link (srcpad sinkpad : GstPad) (g : Gst) : Gst :=
  { g with links := g.links ++ [(srcpad, sinkpad)],
           calls := g.calls ++ [GstCall.pad_link srcpad sinkpad] }

/-- Modelled from the spec: `gst_pad_add_probe` of the runtime; the callback
`event_probe_cb` is installed on the pad with the given `user_data`. -/
def gst_pad_add_probe (pad : GstPad) (user_data : Nat) (g : Gst) : Gst :=
  { g with probes := g.probes ++ [(pad, user_data)],
           calls := g.calls ++ [GstCall.pad_add_probe pad user_data] }

/-! ## The program -/

/-- The function `event_probe_cb` (lines 24-45).  The arguments `pad` and `info` are
not used by the C function; `user_data` is the `ThreadData` it reads and writes.
The result is the return value, the updated `ThreadData` and the new GStreamer state.
The product of line 28 is the `int` product `int_mul`; the increment of line 29 runs
only below that product, hence below `INT_MAX`, and cannot overflow. -/
def event_probe_cb (alloc : Allocator) (thread_data : ThreadData) (g : Gst) :
    GstPadProbeReturn × ThreadData × Gst :=
  if thread_data.passed_buffers < int_mul thread_data.thread_num PASS_BUFFERS then
    (GstPadProbeReturn.GST_PAD_PROBE_PASS,
      { thread_data with passed_buffers := thread_data.passed_buffers + 1 }, g)
  else
    let g := gst_element_release_request_pad thread_data.currentMixerPad g
    let g := gst_pad_unlink thread_data.srcpad thread_data.currentMixerPad g
    let g := gst_object_unref thread_data.currentMixerPad g
    let r := gst_element_request_pad_simple alloc g
    let thread_data := { thread_data with currentMixerPad := r.1 }
    let g := gst_pad_link thread_data.srcpad thread_data.currentMixerPad r.2
    let thread_data := { thread_data with passed_buffers := 0 }
    (GstPadProbeReturn.GST_PAD_PROBE_PASS, thread_data, g)

/-- The function `setup_thread` (lines 47-63), called with the pointer
`&thread_data[addr]`, whose contents are `thread_data`. -/
def setup_thread (alloc : Allocator) (addr : Nat) (thread_data : ThreadData) (g : Gst) :
    ThreadData × Gst :=
  let thread_num := thread_data.thread_num
  let thread_data := { thread_data with src := gst_element_factory_make thread_num }
  let g := gst_bin_add thread_data.src g
  let r := gst_element_request_pad_simple alloc g
  let thread_data := { thread_data with currentMixerPad := r.1 }
  let thread_data := { thread_data with srcpad := gst_element_get_static_pad thread_data.src }
  let g := gst_pad_link thread_data.srcpad thread_data.currentMixerPad r.2
  let g := gst_pad_add_probe thread_data.srcpad addr g
  (thread_data, g)

/-- The whole state: the array `thread_data` of `main` and the GStreamer objects. -/
structure Program where
  thread_data : List ThreadData
  gst : Gst
  deriving DecidableEq, Repr

/-- The state after lines 84-111 of `main`: pipeline, mixer and sink exist, mixer
and sink are in the pipeline and linked; the mixer has no request pad yet. -/
def main_elements : Gst :=
  let g : Gst := { bin := [], mixer_pads := [], links := [], probes := [], calls := [] }
  let g := gst_bin_add GstElement.audiomixer g
  let g := gst_bin_add GstElement.fakesink g
  gst_element_link_many GstElement.audiomixer GstElement.fakesink g

/-- One iteration `i` of the loop of `main` (lines 118-126).  `stack i` is what the
memory of the uninitialised local `thread_data[i]` holds; the loop assigns
`thread_num` (and `pipeline_data`) and calls `setup_thread`. -/
def main_loop_body (alloc : Allocator) (stack : Nat → ThreadData) (p : Program) (i : Nat) :
    Program :=
  let td := { stack i with thread_num := (i : Int) }
  let r := setup_thread alloc i td p.gst
  { thread_data := p.thread_data ++ [r.1], gst := r.2 }

/-- The function `main` up to line 126, that is, the state right before
`gst_element_set_state(pipeline, GST_STATE_PLAYING)`. -/
def main (alloc : Allocator) (stack : Nat → ThreadData) : Program :=
  (List.range NUM_THREADS).foldl (main_loop_body alloc stack)
    { thread_data := [], gst := main_elements }

/-- The runtime presents one data unit to the probe installed with
`user_data = &thread_data[k]`: `event_probe_cb` runs on that `ThreadData`. -/
def probe (alloc : Allocator) (p : Program) (k : Nat) : Program :=
  match p.thread_data[k]? with
  | none => p
  | some td =>
    let r := event_probe_cb alloc td p.gst
    { thread_data := p.thread_data.set k r.2.1, gst := r.2.2 }

/-- A sequence of probe invocations, one per listed source, in order. -/
def run (alloc : Allocator) (p : Program) (ks : List Nat) : Program :=
  ks.foldl (probe alloc) p

/-- The state of one binding after `n` data units delivered one after another to
its hook. -/
def deliver (alloc : Allocator) : Nat → ThreadData × Gst → ThreadData × Gst
  | 0, s => s
  | n + 1, s =>
    let s := deliver alloc n s
    (event_probe_cb alloc s.1 s.2).2

/-! ## Observations on states and traces -/

/-- The number of rotations recorded in the trace: each rotation releases one
request pad, and nothing else does. -/
def rotations (g : Gst) : Nat :=
  g.calls.countP fun c => match c with
    | GstCall.release_request_pad _ => true
    | _ => false

/-- Replays a trace on a set of live slots: a request makes its result live, a
release removes its argument.  The result is `none` as soon as a release is applied
to a slot that is not live at that moment, and the final set of live slots otherwise. -/
def replay : List GstPad → List GstCall → Option (List GstPad)
  | live, [] => some live
  | live, GstCall.release_request_pad pad :: cs =>
    if pad ∈ live then replay (live.filter fun q => q ≠ pad) cs else none
  | live, GstCall.request_pad_simple pad :: cs => replay (pad :: live) cs
  | live, _ :: cs => replay live cs

/-- Every release of the trace, replayed from a mixer without request pads, is
applied to a slot that is live at that moment. -/
def releases_live (calls : List GstCall) : Bool :=
  (replay [] calls).isSome

/-- The property of a trace that no slot is passed to release twice unless a request
that returned that same slot happened in between. -/
def NoDoubleRelease (calls : List GstCall) : Prop :=
  ∀ (i j : Nat) (pad : GstPad), i < j →
    calls[i]? = some (GstCall.release_request_pad pad) →
    calls[j]? = some (GstCall.release_request_pad pad) →
    ∃ m : Nat, i < m ∧ m < j ∧ calls[m]? = some (GstCall.request_pad_simple pad)

/-- Follows a trace with the set `released` of the slots that were released and
not returned by a request since.  The result is `none` as soon as a slot of that set
is released again, and the final set otherwise. -/
def track : List GstPad → List GstCall → Option (List GstPad)
  | released, [] => some released
  | released, GstCall.release_request_pad pad :: cs =>
    if pad ∈ released then none else track (pad :: released) cs
  | released, GstCall.request_pad_simple pad :: cs =>
    track (released.filter fun q => q ≠ pad) cs
  | released, _ :: cs => track released cs

/-- The executable check of `NoDoubleRelease`, by `track` from an empty set. -/
def no_double_release (calls : List GstCall) : Bool :=
  (track [] calls).isSome

/-- The 1:1 relation of slots and bindings: the live slots are as many as the
bindings, every binding holds a live slot, and no two bindings hold the same slot. -/
def OneToOne (p : Program) : Prop :=
  p.gst.mixer_pads.Nodup ∧
  p.gst.mixer_pads.length = p.thread_data.length ∧
  (∀ td ∈ p.thread_data, td.currentMixerPad ∈ p.gst.mixer_pads) ∧
  p.thread_data.Pairwise fun a b => a.currentMixerPad ≠ b.currentMixerPad

/-- The invariant of the reachable states used in the proofs. -/
def Inv (p : Program) : Prop :=
  p.gst.mixer_pads.Nodup ∧
  (p.thread_data.map fun td => td.currentMixerPad).Perm p.gst.mixer_pads ∧
  (∃ live, replay [] p.gst.calls = some live ∧ ∀ x, x ∈ live ↔ x ∈ p.gst.mixer_pads) ∧
  (∃ released, track [] p.gst.calls = some released ∧ ∀ x ∈ released, x ∉ p.gst.mixer_pads)

/-- An allocator in the manner of the aggregator's pad serial: one more than the
largest number among the live request pads. -/
def next_serial : Allocator := fun g =>
  g.mixer_pads.foldr (fun p m => match p with
    | GstPad.request n => max (n + 1) m
    | _ => m) 0

/-- A stack whose memory is all zero. -/
def zero_stack : Nat → ThreadData := fun _ =>
  { thread_num := 0, src := GstElement.pipeline, srcpad := GstPad.request 0,
    currentMixerPad := GstPad.request 0, passed_buffers := 0 }

/-- A stack whose memory holds `v` in every `passed_buffers`. -/
def stale_stack (v : Int) : Nat → ThreadData := fun _ =>
  { thread_num := 0, src := GstElement.pipeline, srcpad := GstPad.request 0,
    currentMixerPad := GstPad.request 0, passed_buffers := v }

/-! ## The two branches of `event_probe_cb` -/

theorem int_mul_of_fits (a b : Int) (h1 : INT_MIN ≤ a * b) (h2 : a * b ≤ INT_MAX) :
    int_mul a b = a * b := by
  unfold int_mul
  unfold INT_MIN at h1
  unfold INT_MAX at h2
  generalize a * b = x at *
  omega

theorem event_probe_cb_count (alloc : Allocator) (td : ThreadData) (g : Gst)
    (h : td.passed_buffers < int_mul td.thread_num PASS_BUFFERS) :
    event_probe_cb alloc td g =
      (GstPadProbeReturn.GST_PAD_PROBE_PASS,
        { td with passed_buffers := td.passed_buffers + 1 }, g) := by
  simp [event_probe_cb, h]

theorem event_probe_cb_rotate (alloc : Allocator) (td : ThreadData) (g : Gst)
    (h : ¬ td.passed_buffers < int_mul td.thread_num PASS_BUFFERS) :
    event_probe_cb alloc td g =
      (GstPadProbeReturn.GST_PAD_PROBE_PASS,
        { td with
            currentMixerPad := (gst_element_request_pad_simple alloc
              (gst_object_unref td.currentMixerPad
                (gst_pad_unlink td.srcpad td.currentMixerPad
                  (gst_element_release_request_pad td.currentMixerPad g)))).1,
            passed_buffers := 0 },
        gst_pad_link td.srcpad
          (gst_element_request_pad_simple alloc
              (gst_object_unref td.currentMixerPad
                (gst_pad_unlink td.srcpad td.currentMixerPad
                  (gst_element_release_request_pad td.currentMixerPad g)))).1
          (gst_element_request_pad_simple alloc
              (gst_object_unref td.currentMixerPad
                (gst_pad_unlink td.srcpad td.currentMixerPad
                  (gst_element_release_request_pad td.currentMixerPad g)))).2) := by
  simp [event_probe_cb, h]

theorem rotations_count (alloc : Allocator) (td : ThreadData) (g : Gst)
    (h : td.passed_buffers < int_mul td.thread_num PASS_BUFFERS) :
    rotations (event_probe_cb alloc td g).2.2 = rotations g := by
  rw [event_probe_cb_count alloc td g h]

theorem rotations_rotate (alloc : Allocator) (td : ThreadData) (g : Gst)
    (h : ¬ td.passed_buffers < int_mul td.thread_num PASS_BUFFERS) :
    rotations (event_probe_cb alloc td g).2.2 = rotations g + 1 := by
  rw [event_probe_cb_rotate alloc td g h]
  simp [rotations, gst_pad_link, gst_element_request_pad_simple, gst_object_unref,
    gst_pad_unlink, gst_element_release_request_pad, List.countP_append, List.countP_cons]

/-! ## C1: the value the hook compares the counter against -/

/-- C1 (as stated, refuted): for the binding of index 0 built by `main`, with its
counter at 0, the counter is below `(0 + 1) * 7 = 7`, and yet the first data unit
already makes the hook rotate: the value compared is not 7.  Moreover, for the index
306783379 the product of line 28 does not fit an `int`, and the value compared is
the negative 32-bit product, neither `(i + 1) * 7` nor `i * 7`. -/
theorem C1_counterexample :
    ((main next_serial zero_stack).thread_data.map
        fun td => (td.thread_num, td.passed_buffers)) = [(0, 0), (1, 0), (2, 0)] ∧
    (0 : Int) < (0 + 1) * PASS_BUFFERS ∧
    rotations (main next_serial zero_stack).gst = 0 ∧
    rotations (probe next_serial (main next_serial zero_stack) 0).gst = 1 ∧
    INT_MAX < (306783379 : Int) * PASS_BUFFERS ∧
    int_mul 306783379 PASS_BUFFERS = -2147483643 := by
  decide

/-- C1 (amended): for every binding whose product `thread_num * PASS_BUFFERS` fits
an `int`, the hook counts exactly when the counter is below
`thread_num * PASS_BUFFERS` and rotates exactly when the counter has reached it; for
the three bindings built by `main` this value is 0, 7 and 14. -/
theorem C1_threshold (alloc : Allocator) (td : ThreadData) (g : Gst)
    (stack : Nat → ThreadData)
    (hmin : INT_MIN ≤ td.thread_num * PASS_BUFFERS)
    (hmax : td.thread_num * PASS_BUFFERS ≤ INT_MAX) :
    (rotations (event_probe_cb alloc td g).2.2 = rotations g ↔
        td.passed_buffers < td.thread_num * PASS_BUFFERS) ∧
    (rotations (event_probe_cb alloc td g).2.2 = rotations g + 1 ↔
        td.thread_num * PASS_BUFFERS ≤ td.passed_buffers) ∧
    ((main alloc stack).thread_data.map fun b => b.thread_num * PASS_BUFFERS)
      = [0, 7, 14] ∧
    ((main alloc stack).thread_data.map fun b => int_mul b.thread_num PASS_BUFFERS)
      = [0, 7, 14] := by
  have hfit := int_mul_of_fits td.thread_num PASS_BUFFERS hmin hmax
  refine ⟨?_, ?_, ?_, ?_⟩
  · by_cases h : td.passed_buffers < int_mul td.thread_num PASS_BUFFERS
    · simpa [rotations_count alloc td g h] using hfit ▸ h
    · rw [rotations_rotate alloc td g h]
      rw [hfit] at h
      simp [h]
  · by_cases h : td.passed_buffers < int_mul td.thread_num PASS_BUFFERS
    · rw [rotations_count alloc td g h]
      rw [hfit] at h
      simp
      exact h
    · rw [rotations_rotate alloc td g h]
      rw [hfit] at h
      simpa using h
  · simp [main, NUM_THREADS, List.range, List.range.loop, main_loop_body, setup_thread,
      PASS_BUFFERS]
  · simp [main, NUM_THREADS, List.range, List.range.loop, main_loop_body, setup_thread,
      PASS_BUFFERS, int_mul]

/-- C1 (amended) at a concrete input: the binding of source 1 with its counter at
7, the value `1 * PASS_BUFFERS`: the hook rotates. -/
theorem C1_threshold_witness :
    (INT_MIN ≤ (1 : Int) * PASS_BUFFERS ∧ (1 : Int) * PASS_BUFFERS ≤ INT_MAX) ∧
    (rotations (event_probe_cb next_serial
        { thread_num := 1, src := GstElement.audiotestsrc 1,
          srcpad := GstPad.src (GstElement.audiotestsrc 1),
          currentMixerPad := GstPad.request 1, passed_buffers := 7 }
        (main next_serial zero_stack).gst).2.2
      = rotations (main next_serial zero_stack).gst + 1 ↔
        (1 : Int) * PASS_BUFFERS ≤ 7) :=
  ⟨by decide,
    (C1_threshold next_serial
        { thread_num := 1, src := GstElement.audiotestsrc 1,
          srcpad := GstPad.src (GstElement.audiotestsrc 1),
          currentMixerPad := GstPad.request 1, passed_buffers := 7 }
        (main next_serial zero_stack).gst zero_stack (by decide) (by decide)).2.1⟩

/-! ## C3: the hook always passes -/

/-- C3: for every binding state and every GStreamer state, whichever branch is
taken, the one value `event_probe_cb` returns is `GST_PAD_PROBE_PASS`. -/
theorem C3_always_pass (alloc : Allocator) (td : ThreadData) (g : Gst) :
    (event_probe_cb alloc td g).1 = GstPadProbeReturn.GST_PAD_PROBE_PASS := by
  unfold event_probe_cb
  split <;> rfl

/-! ## C6: a hook touches only its own binding -/

/-- C6: an invocation of the hook of binding `a`, counting or rotating, leaves
every other binding `b` as it was: all its fields, `currentMixerPad`,
`passed_buffers`, `thread_num`, `src` and `srcpad`, are unchanged. -/
theorem C6_independence (alloc : Allocator) (p : Program) (a b : Nat) (h : a ≠ b) :
    (probe alloc p a).thread_data[b]? = p.thread_data[b]? := by
  unfold probe
  split
  · rfl
  · simp [List.getElem?_set_ne h]

/-- C6 at a concrete input: the first unit of source 0 rotates source 0 and leaves
the binding of source 1 unchanged. -/
theorem C6_independence_witness :
    (0 : Nat) ≠ 1 ∧
    rotations (probe next_serial (main next_serial zero_stack) 0).gst = 1 ∧
    (probe next_serial (main next_serial zero_stack) 0).thread_data[1]?
      = (main next_serial zero_stack).thread_data[1]? :=
  ⟨by decide, by decide,
    C6_independence next_serial (main next_serial zero_stack) 0 1 (by decide)⟩

/-! ## C7: the order of the calls of a rotation -/

/-- C7 (as stated, refuted): when source 0 of the program built by `main` rotates,
the calls it adds to the trace start with the release of the old slot, and the
unlink comes second: the old slot is released before it is unlinked. -/
theorem C7_counterexample :
    (probe next_serial (main next_serial zero_stack) 0).gst.calls.drop
        (main next_serial zero_stack).gst.calls.length
      = [GstCall.release_request_pad (GstPad.request 0),
         GstCall.pad_unlink (GstPad.src (GstElement.audiotestsrc 0)) (GstPad.request 0),
         GstCall.object_unref (GstPad.request 0),
         GstCall.request_pad_simple (GstPad.request 3),
         GstCall.pad_link (GstPad.src (GstElement.audiotestsrc 0)) (GstPad.request 3)] ∧
    (probe next_serial (main next_serial zero_stack) 0).gst.calls.drop
        (main next_serial zero_stack).gst.calls.length
      ≠ [GstCall.pad_unlink (GstPad.src (GstElement.audiotestsrc 0)) (GstPad.request 0),
         GstCall.release_request_pad (GstPad.request 0),
         GstCall.request_pad_simple (GstPad.request 3),
         GstCall.pad_link (GstPad.src (GstElement.audiotestsrc 0)) (GstPad.request 3)] := by
  decide

/-- C7 (amended): whenever `event_probe_cb` performs a rotation, the calls it
issues are, in this order, release(old slot), unlink(srcpad, old slot), unref(old
slot), request of a new slot, link(srcpad, new slot); on return the binding holds
the new slot, the new slot is live and linked to the srcpad, the counter is 0 and the
result is pass. -/
theorem C7_rotation_order (alloc : Allocator) (td : ThreadData) (g : Gst)
    (h : rotations (event_probe_cb alloc td g).2.2 = rotations g + 1) :
    (event_probe_cb alloc td g).2.2.calls = g.calls ++
      [GstCall.release_request_pad td.currentMixerPad,
       GstCall.pad_unlink td.srcpad td.currentMixerPad,
       GstCall.object_unref td.currentMixerPad,
       GstCall.request_pad_simple (event_probe_cb alloc td g).2.1.currentMixerPad,
       GstCall.pad_link td.srcpad (event_probe_cb alloc td g).2.1.currentMixerPad] ∧
    (event_probe_cb alloc td g).2.1.currentMixerPad ∈ (event_probe_cb alloc td g).2.2.mixer_pads ∧
    (td.srcpad, (event_probe_cb alloc td g).2.1.currentMixerPad)
      ∈ (event_probe_cb alloc td g).2.2.links ∧
    (event_probe_cb alloc td g).2.1.srcpad = td.srcpad ∧
    (event_probe_cb alloc td g).2.1.passed_buffers = 0 ∧
    (event_probe_cb alloc td g).1 = GstPadProbeReturn.GST_PAD_PROBE_PASS := by
  have hr : ¬ td.passed_buffers < int_mul td.thread_num PASS_BUFFERS := by
    intro hlt
    rw [rotations_count alloc td g hlt] at h
    omega
  rw [event_probe_cb_rotate alloc td g hr]
  simp [gst_pad_link, gst_element_request_pad_simple, gst_object_unref, gst_pad_unlink,
    gst_element_release_request_pad]

/-- C7 (amended) at a concrete input: the first unit of source 0 in the program
built by `main`. -/
theorem C7_rotation_order_witness :
    rotations (event_probe_cb next_serial
        { thread_num := 0, src := GstElement.audiotestsrc 0,
          srcpad := GstPad.src (GstElement.audiotestsrc 0),
          currentMixerPad := GstPad.request 0, passed_buffers := 0 }
        (main next_serial zero_stack).gst).2.2
      = rotations (main next_serial zero_stack).gst + 1 ∧
    (event_probe_cb next_serial
        { thread_num := 0, src := GstElement.audiotestsrc 0,
          srcpad := GstPad.src (GstElement.audiotestsrc 0),
          currentMixerPad := GstPad.request 0, passed_buffers := 0 }
        (main next_serial zero_stack).gst).2.1.passed_buffers = 0 :=
  ⟨by decide,
    (C7_rotation_order next_serial
        { thread_num := 0, src := GstElement.audiotestsrc 0,
          srcpad := GstPad.src (GstElement.audiotestsrc 0),
          currentMixerPad := GstPad.request 0, passed_buffers := 0 }
        (main next_serial zero_stack).gst (by decide)).2.2.2.2.1⟩

/-! ## Lists and traces -/

theorem set_perm_cons_erase {α : Type} [DecidableEq α] (l : List α) (k : Nat) (old new : α)
    (hk : l[k]? = some old) (hn : l.Nodup) : (l.set k new).Perm (new :: l.erase old) := by
  induction l generalizing k with
  | nil => simp at hk
  | cons a t ih =>
    cases k with
    | zero =>
      simp at hk
      subst hk
      simp
    | succ k =>
      simp at hk
      have hmem : old ∈ t := List.getElem?_mem hk
      have hne : a ≠ old := by
        intro h
        subst h
        exact (List.nodup_cons.mp hn).1 hmem
      have hnt : t.Nodup := (List.nodup_cons.mp hn).2
      rw [List.set_cons_succ, List.erase_cons_tail (by simpa using hne)]
      exact ((ih k hk hnt).cons a).trans (List.Perm.swap new a _)

theorem set_same {α : Type} (l : List α) (k : Nat) (a : α) (hk : l[k]? = some a) :
    l.set k a = l := by
  induction l generalizing k with
  | nil => rfl
  | cons b t ih =>
    cases k with
    | zero =>
      simp at hk
      subst hk
      rfl
    | succ k =>
      simp at hk
      rw [List.set_cons_succ, ih k hk]

theorem replay_append (live : List GstPad) (a b : List GstCall) :
    replay live (a ++ b) = (replay live a).bind fun l => replay l b := by
  induction a generalizing live with
  | nil => simp [replay]
  | cons c cs ih =>
    cases c <;> simp [replay, ih]
    split <;> simp

theorem track_append (released : List GstPad) (a b : List GstCall) :
    track released (a ++ b) = (track released a).bind fun l => track l b := by
  induction a generalizing released with
  | nil => simp [track]
  | cons c cs ih =>
    cases c <;> simp [track, ih]
    split <;> simp

/-- A trace that `track` accepts has the property `NoDoubleRelease`. -/
theorem track_sound (cs : List GstCall) : ∀ released : List GstPad,
    (track released cs).isSome = true →
    (∀ (j : Nat) (pad : GstPad), pad ∈ released → cs[j]? = some (GstCall.release_request_pad pad) →
      ∃ m : Nat, m < j ∧ cs[m]? = some (GstCall.request_pad_simple pad)) ∧
    NoDoubleRelease cs := by
  induction cs with
  | nil =>
    intro released _
    exact ⟨fun j pad _ h => by simp at h, fun i j pad _ h => by simp at h⟩
  | cons c cs ih =>
    intro released h
    have lift : ∀ (R : List GstPad), (track R cs).isSome = true →
        (∀ pad, c ≠ GstCall.release_request_pad pad) →
        (∀ pad, pad ∈ released → pad ∈ R ∨ c = GstCall.request_pad_simple pad) →
        (∀ (j : Nat) (pad : GstPad), pad ∈ released → (c :: cs)[j]? = some (GstCall.release_request_pad pad) →
          ∃ m : Nat, m < j ∧ (c :: cs)[m]? = some (GstCall.request_pad_simple pad)) ∧
        NoDoubleRelease (c :: cs) := by
      intro R hR hc hsub
      obtain ⟨ih1, ih2⟩ := ih R hR
      constructor
      · intro j pad hp hj
        cases j with
        | zero => simp at hj; exact absurd hj (hc pad)
        | succ j =>
          simp at hj
          rcases hsub pad hp with hin | heq
          · obtain ⟨m, hm, hcm⟩ := ih1 j pad hin hj
            exact ⟨m + 1, by omega, by simpa using hcm⟩
          · exact ⟨0, by omega, by simp [heq]⟩
      · intro i j pad hij hi hj
        cases i with
        | zero => simp at hi; exact absurd hi (hc pad)
        | succ i =>
          cases j with
          | zero => omega
          | succ j =>
            simp at hi hj
            obtain ⟨m, h1, h2, h3⟩ := ih2 i j pad (by omega) hi hj
            exact ⟨m + 1, by omega, by omega, by simpa using h3⟩
    cases c with
    | release_request_pad q =>
      simp only [track] at h
      split at h
      · simp at h
      · rename_i hq
        obtain ⟨ih1, ih2⟩ := ih (q :: released) h
        constructor
        · intro j pad hp hj
          cases j with
          | zero =>
            simp at hj
            subst hj
            exact absurd hp hq
          | succ j =>
            simp at hj
            obtain ⟨m, hm, hcm⟩ := ih1 j pad (List.mem_cons_of_mem _ hp) hj
            exact ⟨m + 1, by omega, by simpa using hcm⟩
        · intro i j pad hij hi hj
          cases j with
          | zero => omega
          | succ j =>
            simp at hj
            cases i with
            | zero =>
              simp at hi
              subst hi
              obtain ⟨m, hm, hcm⟩ := ih1 j q (List.mem_cons_self _ _) hj
              exact ⟨m + 1, by omega, by omega, by simpa using hcm⟩
            | succ i =>
              simp at hi
              obtain ⟨m, h1, h2, h3⟩ := ih2 i j pad (by omega) hi hj
              exact ⟨m + 1, by omega, by omega, by simpa using h3⟩
    | request_pad_simple q =>
      simp only [track] at h
      refine lift _ h (by simp) ?_
      intro pad hp
      by_cases hpq : pad = q
      · right; rw [hpq]
      · left; simp [List.mem_filter, hp, hpq]
    | bin_add e => exact lift released (by simpa [track] using h) (by simp) (fun _ hp => Or.inl hp)
    | element_link a b =>
      exact lift released (by simpa [track] using h) (by simp) (fun _ hp => Or.inl hp)
    | pad_unlink a b =>
      exact lift released (by simpa [track] using h) (by simp) (fun _ hp => Or.inl hp)
    | object_unref a =>
      exact lift released (by simpa [track] using h) (by simp) (fun _ hp => Or.inl hp)
    | pad_link a b =>
      exact lift released (by simpa [track] using h) (by simp) (fun _ hp => Or.inl hp)
    | pad_add_probe a b =>
      exact lift released (by simpa [track] using h) (by simp) (fun _ hp => Or.inl hp)

/-! ## The invariant of the reachable states -/

theorem next_serial_fresh : Allocator.Fresh next_serial := by
  intro g
  have key : ∀ (l : List GstPad) (n : Nat), GstPad.request n ∈ l →
      n < l.foldr (fun p m => match p with
        | GstPad.request n => max (n + 1) m
        | _ => m) 0 := by
    intro l
    induction l with
    | nil => intro n h; simp at h
    | cons a t ih =>
      intro n h
      rcases List.mem_cons.mp h with h | h
      · subst h
        simp only [List.foldr_cons]
        omega
      · have := ih n h
        cases a <;> simp only [List.foldr_cons] <;> omega
  intro h
  exact absurd (key g.mixer_pads _ h) (by simp [next_serial])

theorem probe_none (alloc : Allocator) (p : Program) (k : Nat)
    (hk : p.thread_data[k]? = none) : probe alloc p k = p := by
  simp [probe, hk]

theorem probe_count (alloc : Allocator) (p : Program) (k : Nat) (td : ThreadData)
    (hk : p.thread_data[k]? = some td)
    (h : td.passed_buffers < int_mul td.thread_num PASS_BUFFERS) :
    probe alloc p k =
      { thread_data := p.thread_data.set k { td with passed_buffers := td.passed_buffers + 1 },
        gst := p.gst } := by
  simp [probe, hk, event_probe_cb_count alloc td p.gst h]

theorem probe_rotate (alloc : Allocator) (p : Program) (k : Nat) (td : ThreadData)
    (hk : p.thread_data[k]? = some td)
    (h : ¬ td.passed_buffers < int_mul td.thread_num PASS_BUFFERS) :
    ∃ g3 : Gst, g3.mixer_pads = p.gst.mixer_pads.erase td.currentMixerPad ∧
      (probe alloc p k).thread_data = p.thread_data.set k
        { td with currentMixerPad := GstPad.request (alloc g3), passed_buffers := 0 } ∧
      (probe alloc p k).gst.mixer_pads =
        p.gst.mixer_pads.erase td.currentMixerPad ++ [GstPad.request (alloc g3)] ∧
      (probe alloc p k).gst.calls = p.gst.calls ++
        [GstCall.release_request_pad td.currentMixerPad,
         GstCall.pad_unlink td.srcpad td.currentMixerPad,
         GstCall.object_unref td.currentMixerPad,
         GstCall.request_pad_simple (GstPad.request (alloc g3)),
         GstCall.pad_link td.srcpad (GstPad.request (alloc g3))] := by
  refine ⟨gst_object_unref td.currentMixerPad
    (gst_pad_unlink td.srcpad td.currentMixerPad
      (gst_element_release_request_pad td.currentMixerPad p.gst)), rfl, ?_, ?_, ?_⟩ <;>
  simp [probe, hk, event_probe_cb_rotate alloc td p.gst h, gst_pad_link,
    gst_element_request_pad_simple, gst_object_unref, gst_pad_unlink,
    gst_element_release_request_pad]

theorem Inv_probe (alloc : Allocator) (hf : alloc.Fresh) (p : Program) (k : Nat)
    (hp : Inv p) : Inv (probe alloc p k) := by
  cases hk : p.thread_data[k]? with
  | none => rw [probe_none alloc p k hk]; exact hp
  | some td =>
    by_cases h : td.passed_buffers < int_mul td.thread_num PASS_BUFFERS
    · rw [probe_count alloc p k td hk h]
      obtain ⟨hnd, hperm, hlive, hrel⟩ := hp
      refine ⟨hnd, ?_, hlive, hrel⟩
      have hm : (p.thread_data.map fun td => td.currentMixerPad)[k]?
          = some td.currentMixerPad := by simp [hk]
      simpa [List.map_set, set_same _ _ _ hm] using hperm
    · obtain ⟨g3, hg3, htd, hpads, hcalls⟩ := probe_rotate alloc p k td hk h
      obtain ⟨hnd, hperm, ⟨live, hlive, hlm⟩, ⟨released, hrel, hrm⟩⟩ := hp
      have hm : (p.thread_data.map fun td => td.currentMixerPad)[k]?
          = some td.currentMixerPad := by simp [hk]
      have hold : td.currentMixerPad ∈ p.gst.mixer_pads :=
        hperm.subset (List.getElem?_mem hm)
      have hnew : GstPad.request (alloc g3) ∉ p.gst.mixer_pads.erase td.currentMixerPad := by
        have := hf g3
        rwa [hg3] at this
      have hndm : (p.thread_data.map fun td => td.currentMixerPad).Nodup :=
        hperm.nodup_iff.mpr hnd
      have hnd2 : (GstPad.request (alloc g3) ::
          p.gst.mixer_pads.erase td.currentMixerPad).Nodup :=
        List.nodup_cons.mpr ⟨hnew, hnd.erase _⟩
      have hswap : (p.gst.mixer_pads.erase td.currentMixerPad ++ [GstPad.request (alloc g3)]).Perm
          (GstPad.request (alloc g3) :: p.gst.mixer_pads.erase td.currentMixerPad) :=
        List.perm_append_singleton _ _
      refine ⟨?_, ?_, ?_, ?_⟩
      · rw [hpads]
        exact hswap.nodup_iff.mpr hnd2
      · rw [hpads, htd, List.map_set]
        exact ((set_perm_cons_erase _ k _ _ hm hndm).trans
          ((hperm.erase _).cons _)).trans hswap.symm
      · refine ⟨GstPad.request (alloc g3) :: live.filter fun q => q ≠ td.currentMixerPad, ?_, ?_⟩
        · rw [hcalls, replay_append, hlive]
          simp [replay, (hlm _).mpr hold]
        · intro x
          rw [hpads]
          simp only [List.mem_cons, List.mem_filter, List.mem_append, List.mem_singleton,
            hnd.mem_erase_iff, hlm, decide_eq_true_eq]
          tauto
      · refine ⟨(td.currentMixerPad :: released).filter fun q => q ≠ GstPad.request (alloc g3),
          ?_, ?_⟩
        · rw [hcalls, track_append, hrel]
          have : td.currentMixerPad ∉ released := fun hc => hrm _ hc hold
          simp [track, this]
        · intro x hx
          rw [hpads]
          simp only [List.mem_cons, List.mem_filter, decide_eq_true_eq] at hx
          simp only [List.mem_append, List.mem_singleton, hnd.mem_erase_iff]
          rcases hx with ⟨hx | hx, hne⟩
          · subst hx
            tauto
          · have := hrm x hx
            tauto

theorem Inv_run (alloc : Allocator) (hf : alloc.Fresh) (p : Program) (ks : List Nat)
    (hp : Inv p) : Inv (run alloc p ks) := by
  induction ks generalizing p with
  | nil => exact hp
  | cons k ks ih => exact ih _ (Inv_probe alloc hf p k hp)

theorem fresh_ne (alloc : Allocator) (hf : alloc.Fresh) (g : Gst) (n : Nat)
    (h : GstPad.request n ∈ g.mixer_pads) : n ≠ alloc g := by
  intro e
  subst e
  exact hf g h

/-- The state `main` builds, written out: three request pads with pairwise
distinct numbers, one per binding. -/
theorem main_shape (alloc : Allocator) (hf : alloc.Fresh) (stack : Nat → ThreadData) :
    ∃ n0 n1 n2 : Nat, n0 ≠ n1 ∧ n0 ≠ n2 ∧ n1 ≠ n2 ∧
      main alloc stack =
        { thread_data :=
            [{ thread_num := 0, src := GstElement.audiotestsrc 0,
               srcpad := GstPad.src (GstElement.audiotestsrc 0),
               currentMixerPad := GstPad.request n0,
               passed_buffers := (stack 0).passed_buffers },
             { thread_num := 1, src := GstElement.audiotestsrc 1,
               srcpad := GstPad.src (GstElement.audiotestsrc 1),
               currentMixerPad := GstPad.request n1,
               passed_buffers := (stack 1).passed_buffers },
             { thread_num := 2, src := GstElement.audiotestsrc 2,
               srcpad := GstPad.src (GstElement.audiotestsrc 2),
               currentMixerPad := GstPad.request n2,
               passed_buffers := (stack 2).passed_buffers }],
          gst :=
            { bin := [GstElement.audiomixer, GstElement.fakesink, GstElement.audiotestsrc 0,
                GstElement.audiotestsrc 1, GstElement.audiotestsrc 2],
              mixer_pads := [GstPad.request n0, GstPad.request n1, GstPad.request n2],
              links := [(GstPad.src GstElement.audiomixer, GstPad.sink GstElement.fakesink),
                (GstPad.src (GstElement.audiotestsrc 0), GstPad.request n0),
                (GstPad.src (GstElement.audiotestsrc 1), GstPad.request n1),
                (GstPad.src (GstElement.audiotestsrc 2), GstPad.request n2)],
              probes := [(GstPad.src (GstElement.audiotestsrc 0), 0),
                (GstPad.src (GstElement.audiotestsrc 1), 1),
                (GstPad.src (GstElement.audiotestsrc 2), 2)],
              calls := [GstCall.bin_add GstElement.audiomixer,
                GstCall.bin_add GstElement.fakesink,
                GstCall.element_link GstElement.audiomixer GstElement.fakesink,
                GstCall.bin_add (GstElement.audiotestsrc 0),
                GstCall.request_pad_simple (GstPad.request n0),
                GstCall.pad_link (GstPad.src (GstElement.audiotestsrc 0)) (GstPad.request n0),
                GstCall.pad_add_probe (GstPad.src (GstElement.audiotestsrc 0)) 0,
                GstCall.bin_add (GstElement.audiotestsrc 1),
                GstCall.request_pad_simple (GstPad.request n1),
                GstCall.pad_link (GstPad.src (GstElement.audiotestsrc 1)) (GstPad.request n1),
                GstCall.pad_add_probe (GstPad.src (GstElement.audiotestsrc 1)) 1,
                GstCall.bin_add (GstElement.audiotestsrc 2),
                GstCall.request_pad_simple (GstPad.request n2),
                GstCall.pad_link (GstPad.src (GstElement.audiotestsrc 2)) (GstPad.request n2),
                GstCall.pad_add_probe (GstPad.src (GstElement.audiotestsrc 2)) 2] } } := by
  refine ⟨_, _, _, ?_, ?_, ?_, rfl⟩
  · exact fresh_ne alloc hf _ _ (by simp [main_loop_body, setup_thread,
      main_elements, gst_bin_add, gst_pad_link, gst_pad_add_probe, gst_element_link_many,
      gst_element_request_pad_simple])
  · exact fresh_ne alloc hf _ _ (by simp [main_loop_body, setup_thread,
      main_elements, gst_bin_add, gst_pad_link, gst_pad_add_probe, gst_element_link_many,
      gst_element_request_pad_simple])
  · exact fresh_ne alloc hf _ _ (by simp [main_loop_body, setup_thread,
      main_elements, gst_bin_add, gst_pad_link, gst_pad_add_probe, gst_element_link_many,
      gst_element_request_pad_simple])

theorem Inv_main (alloc : Allocator) (hf : alloc.Fresh) (stack : Nat → ThreadData) :
    Inv (main alloc stack) := by
  obtain ⟨n0, n1, n2, h01, h02, h12, hm⟩ := main_shape alloc hf stack
  rw [hm]
  refine ⟨?_, ?_, ⟨[GstPad.request n2, GstPad.request n1, GstPad.request n0], ?_, ?_⟩,
    ⟨[], ?_, ?_⟩⟩
  · simp [h01, h02, h12]
  · simp
  · simp [replay]
  · intro x
    simp
    tauto
  · simp [track]
  · simp

theorem length_probe (alloc : Allocator) (p : Program) (k : Nat) :
    (probe alloc p k).thread_data.length = p.thread_data.length := by
  unfold probe
  split <;> simp

theorem length_run (alloc : Allocator) (p : Program) (ks : List Nat) :
    (run alloc p ks).thread_data.length = p.thread_data.length := by
  induction ks generalizing p with
  | nil => rfl
  | cons k ks ih => exact (ih _).trans (length_probe alloc p k)

theorem OneToOne_of_Inv (p : Program) (hp : Inv p) : OneToOne p := by
  obtain ⟨hnd, hperm, -, -⟩ := hp
  refine ⟨hnd, ?_, ?_, ?_⟩
  · simpa using hperm.length_eq.symm
  · intro td htd
    exact hperm.subset (List.mem_map_of_mem _ htd)
  · have hndm : (p.thread_data.map fun td => td.currentMixerPad).Nodup :=
      hperm.nodup_iff.mpr hnd
    exact List.pairwise_map.mp hndm

/-! ## C9: the state at start-up -/

/-- C9: after `main` has run `setup_thread` for its three sources, and before it
sets the pipeline to PLAYING, there are three bindings with `thread_num` 0, 1, 2; the
mixer has exactly three live request slots, pairwise distinct, the ones the bindings
hold in order; besides the link of mixer and sink, the links are exactly the three
from each binding's srcpad to its own slot; and a probe is installed on each
binding's srcpad with that binding as `user_data`. -/
theorem C9_startup (alloc : Allocator) (hf : alloc.Fresh) (stack : Nat → ThreadData) :
    (main alloc stack).thread_data.length = NUM_THREADS ∧
    (main alloc stack).gst.mixer_pads.length = 3 ∧
    (main alloc stack).gst.mixer_pads.Nodup ∧
    (main alloc stack).gst.mixer_pads
      = ((main alloc stack).thread_data.map fun td => td.currentMixerPad) ∧
    (main alloc stack).gst.links
      = (GstPad.src GstElement.audiomixer, GstPad.sink GstElement.fakesink) ::
          ((main alloc stack).thread_data.map fun td => (td.srcpad, td.currentMixerPad)) ∧
    ((main alloc stack).thread_data.map fun td => td.thread_num) = [0, 1, 2] ∧
    ((main alloc stack).thread_data.map fun td => td.srcpad)
      = [GstPad.src (GstElement.audiotestsrc 0), GstPad.src (GstElement.audiotestsrc 1),
         GstPad.src (GstElement.audiotestsrc 2)] ∧
    (main alloc stack).gst.probes
      = [(GstPad.src (GstElement.audiotestsrc 0), 0),
         (GstPad.src (GstElement.audiotestsrc 1), 1),
         (GstPad.src (GstElement.audiotestsrc 2), 2)] ∧
    rotations (main alloc stack).gst = 0 := by
  obtain ⟨n0, n1, n2, h01, h02, h12, hm⟩ := main_shape alloc hf stack
  rw [hm]
  simp [h01, h02, h12, NUM_THREADS, rotations]

/-- C9 at a concrete input: the serial allocator and a zeroed stack give the
slots 0, 1 and 2. -/
theorem C9_startup_witness :
    Allocator.Fresh next_serial ∧
    (main next_serial zero_stack).gst.mixer_pads
      = [GstPad.request 0, GstPad.request 1, GstPad.request 2] ∧
    (main next_serial zero_stack).gst.mixer_pads.length = 3 :=
  ⟨next_serial_fresh, by decide, (C9_startup next_serial next_serial_fresh zero_stack).2.1⟩

/-! ## C4: one live slot per binding -/

/-- C4: with a mixer whose requests always succeed and return a slot that is not
live, in every state reached from the state built by `main` by any sequence of hook
invocations on any sources, there are 3 bindings and 3 live slots, every binding's
`currentMixerPad` is a live slot, and no two bindings hold the same slot. -/
theorem C4_slot_invariant (alloc : Allocator) (hf : alloc.Fresh) (stack : Nat → ThreadData)
    (ks : List Nat) :
    (run alloc (main alloc stack) ks).thread_data.length = 3 ∧
    (run alloc (main alloc stack) ks).gst.mixer_pads.length = 3 ∧
    OneToOne (run alloc (main alloc stack) ks) := by
  have hlen : (run alloc (main alloc stack) ks).thread_data.length = 3 := by
    rw [length_run]
    obtain ⟨n0, n1, n2, -, -, -, hm⟩ := main_shape alloc hf stack
    rw [hm]
    rfl
  have h := OneToOne_of_Inv _ (Inv_run alloc hf _ ks (Inv_main alloc hf stack))
  exact ⟨hlen, h.2.1.trans hlen, h⟩

/-- C4 at a concrete input: eleven units spread over the three sources, with the
serial allocator; source 0 rotates twice and source 1 once. -/
theorem C4_slot_invariant_witness :
    Allocator.Fresh next_serial ∧
    rotations (run next_serial (main next_serial zero_stack)
      [0, 1, 1, 1, 1, 1, 1, 1, 1, 2, 0]).gst = 3 ∧
    OneToOne (run next_serial (main next_serial zero_stack)
      [0, 1, 1, 1, 1, 1, 1, 1, 1, 2, 0]) :=
  ⟨next_serial_fresh, by decide,
    (C4_slot_invariant next_serial next_serial_fresh zero_stack
      [0, 1, 1, 1, 1, 1, 1, 1, 1, 2, 0]).2.2⟩

/-! ## C5: no slot is released twice -/

/-- C5: with a mixer whose requests return a slot that is not live, in the trace
of every sequence of hook invocations from the state built by `main`, every release
is applied to a slot that is live at that moment, and no slot is passed to release
twice unless a request that returned that same slot happened in between. -/
theorem C5_no_double_release (alloc : Allocator) (hf : alloc.Fresh)
    (stack : Nat → ThreadData) (ks : List Nat) :
    releases_live (run alloc (main alloc stack) ks).gst.calls = true ∧
    NoDoubleRelease (run alloc (main alloc stack) ks).gst.calls ∧
    no_double_release (run alloc (main alloc stack) ks).gst.calls = true := by
  obtain ⟨-, -, ⟨live, hlive, -⟩, ⟨released, hrel, -⟩⟩ :=
    Inv_run alloc hf _ ks (Inv_main alloc hf stack)
  have hch : no_double_release (run alloc (main alloc stack) ks).gst.calls = true := by
    simp [no_double_release, hrel]
  exact ⟨by simp [releases_live, hlive], (track_sound _ [] hch).2, hch⟩

/-- C5 at a concrete input: four rotations of source 0 and one of source 1. -/
theorem C5_no_double_release_witness :
    Allocator.Fresh next_serial ∧
    rotations (run next_serial (main next_serial zero_stack)
      [0, 0, 1, 1, 1, 1, 1, 1, 1, 1, 0, 0]).gst = 5 ∧
    no_double_release (run next_serial (main next_serial zero_stack)
      [0, 0, 1, 1, 1, 1, 1, 1, 1, 1, 0, 0]).gst.calls = true :=
  ⟨next_serial_fresh, by decide,
    (C5_no_double_release next_serial next_serial_fresh zero_stack
      [0, 0, 1, 1, 1, 1, 1, 1, 1, 1, 0, 0]).2.2⟩

/-! ## The counter of one binding -/

theorem succ_mod_div (n M : Nat) (hM : 0 < M) :
    (n % M + 1 < M → (n + 1) % M = n % M + 1 ∧ (n + 1) / M = n / M) ∧
    (n % M + 1 = M → (n + 1) % M = 0 ∧ (n + 1) / M = n / M + 1) := by
  have hdm : n + 1 = M * (n / M) + (n % M + 1) := by
    have := Nat.div_add_mod n M
    omega
  constructor
  · intro h
    constructor
    · rw [hdm, Nat.mul_add_mod, Nat.mod_eq_of_lt h]
    · rw [hdm, Nat.mul_add_div hM, Nat.div_eq_of_lt h]
      rfl
  · intro h
    have hdm2 : n + 1 = M * (n / M + 1) + 0 := by
      rw [hdm, Nat.mul_add, Nat.mul_one]
      omega
    constructor
    · rw [hdm2, Nat.mul_add_mod]
      simp
    · rw [hdm2, Nat.mul_add_div hM]
      simp

theorem int_mul_nat (i : Nat) (hfit : (i : Int) * PASS_BUFFERS ≤ INT_MAX) :
    int_mul (i : Int) PASS_BUFFERS = (i : Int) * 7 := by
  have h := int_mul_of_fits (i : Int) PASS_BUFFERS
    (by unfold INT_MIN PASS_BUFFERS; omega) hfit
  simpa [PASS_BUFFERS] using h

/-- The state of a binding of index `i` after `n` units, from counter 0, when
`i * PASS_BUFFERS` fits an `int`: the counter is `n mod (7 i + 1)` and
`n div (7 i + 1)` rotations were made. -/
theorem deliver_spec (alloc : Allocator) (td : ThreadData) (g : Gst) (i : Nat)
    (hi : td.thread_num = i) (hfit : (i : Int) * PASS_BUFFERS ≤ INT_MAX)
    (h0 : td.passed_buffers = 0) (n : Nat) :
    (deliver alloc n (td, g)).1.thread_num = i ∧
    (deliver alloc n (td, g)).1.passed_buffers = ((n % (i * 7 + 1) : Nat) : Int) ∧
    rotations (deliver alloc n (td, g)).2 = rotations g + n / (i * 7 + 1) := by
  induction n with
  | zero => simp [deliver, hi, h0]
  | succ n ih =>
    obtain ⟨ht, hpb, hrot⟩ := ih
    have hlt : n % (i * 7 + 1) < i * 7 + 1 := Nat.mod_lt n (Nat.succ_pos (i * 7))
    have hsd := succ_mod_div n (i * 7 + 1) (Nat.succ_pos (i * 7))
    have hmul := int_mul_nat i hfit
    by_cases h : (deliver alloc n (td, g)).1.passed_buffers
        < int_mul (deliver alloc n (td, g)).1.thread_num PASS_BUFFERS
    · have hc := event_probe_cb_count alloc _ (deliver alloc n (td, g)).2 h
      have hlt2 : n % (i * 7 + 1) + 1 < i * 7 + 1 := by
        have h2 := h
        rw [hpb, ht, hmul] at h2
        omega
      obtain ⟨hm, hd⟩ := hsd.1 hlt2
      refine ⟨?_, ?_, ?_⟩
      · simp [deliver, hc, ht]
      · simp [deliver, hc, hpb, hm]
      · simp [deliver, hc, hrot, hd]
    · have hc := event_probe_cb_rotate alloc _ (deliver alloc n (td, g)).2 h
      have hr := rotations_rotate alloc _ (deliver alloc n (td, g)).2 h
      have heq : n % (i * 7 + 1) + 1 = i * 7 + 1 := by
        have h2 := h
        rw [hpb, ht, hmul] at h2
        omega
      obtain ⟨hm, hd⟩ := hsd.2 heq
      refine ⟨?_, ?_, ?_⟩
      · simp [deliver, hc, ht]
      · simp [deliver, hc, hm]
      · simp only [deliver]
        rw [hr, hrot, hd, Nat.add_assoc]

theorem run_append (alloc : Allocator) (p : Program) (ks js : List Nat) :
    run alloc p (ks ++ js) = run alloc (run alloc p ks) js := by
  simp [run, List.foldl_append]

/-- Driving one source alone: `n` units to the hook of binding `k` are `n`
deliveries to that binding. -/
theorem run_replicate (alloc : Allocator) (p : Program) (k : Nat) (td : ThreadData)
    (hk : p.thread_data[k]? = some td) (n : Nat) :
    run alloc p (List.replicate n k) =
      { thread_data := p.thread_data.set k (deliver alloc n (td, p.gst)).1,
        gst := (deliver alloc n (td, p.gst)).2 } := by
  induction n with
  | zero => simp [run, deliver, set_same _ _ _ hk]
  | succ n ih =>
    have hlt : k < p.thread_data.length := by
      rcases List.getElem?_eq_some.mp hk with ⟨h, -⟩
      exact h
    rw [List.replicate_succ', run_append, ih]
    simp [run, probe, deliver, List.getElem?_set_self, hlt]

/-! ## C2: how often a source rotates -/

set_option maxRecDepth 100000 in
/-- C2 (as stated, refuted): in the program built by `main`, with the counters at
0, 21 units delivered to the hook of source 0 make 21 rotations, one per unit, while
`floor(21 / ((0 + 1) * 7))` is 3; already the first unit rotates.  Moreover, a
binding of index 306783379, whose product in line 28 does not fit an `int`, rotates
on its first unit, while `floor(1 / ((306783379 + 1) * 7))` is 0. -/
theorem C2_counterexample :
    rotations (main next_serial zero_stack).gst = 0 ∧
    rotations (run next_serial (main next_serial zero_stack) (List.replicate 21 0)).gst = 21 ∧
    21 / ((0 + 1) * 7) = 3 ∧
    rotations (run next_serial (main next_serial zero_stack) (List.replicate 1 0)).gst = 1 ∧
    INT_MAX < (306783379 : Int) * PASS_BUFFERS ∧
    rotations (run next_serial
      { thread_data :=
          [{ thread_num := 306783379, src := GstElement.audiotestsrc 306783379,
             srcpad := GstPad.src (GstElement.audiotestsrc 306783379),
             currentMixerPad := GstPad.request 0, passed_buffers := 0 }],
        gst := main_elements } (List.replicate 1 0)).gst = 1 ∧
    1 / ((306783379 + 1) * 7) = 0 := by
  decide

/-- C2 (amended): for a binding of index `i` such that `i * PASS_BUFFERS` fits an
`int`, whose counter is 0, `n` data units delivered one after another to its hook
make exactly `floor(n / (i * 7 + 1))` rotations, and unit number `n + 1` rotates
exactly when `i * 7 + 1` divides `n + 1`. -/
theorem C2_rotation_count (alloc : Allocator) (p : Program) (k i : Nat) (td : ThreadData)
    (hk : p.thread_data[k]? = some td) (hi : td.thread_num = i)
    (hfit : (i : Int) * PASS_BUFFERS ≤ INT_MAX)
    (h0 : td.passed_buffers = 0) (n : Nat) :
    rotations (run alloc p (List.replicate n k)).gst = rotations p.gst + n / (i * 7 + 1) ∧
    (rotations (run alloc p (List.replicate (n + 1) k)).gst
        = rotations (run alloc p (List.replicate n k)).gst + 1 ↔ (i * 7 + 1) ∣ (n + 1)) := by
  have h1 := (deliver_spec alloc td p.gst i hi hfit h0 n).2.2
  have h2 := (deliver_spec alloc td p.gst i hi hfit h0 (n + 1)).2.2
  rw [run_replicate alloc p k td hk n, run_replicate alloc p k td hk (n + 1)]
  refine ⟨h1, ?_⟩
  simp only [h1, h2, Nat.succ_div]
  split
  · simp_all [Nat.add_assoc]
  · simp_all

/-- C2 (amended) at a concrete input: source 0 of the program built by `main`,
21 units: 21 rotations. -/
theorem C2_rotation_count_witness :
    (main next_serial zero_stack).thread_data[0]? = some
      { thread_num := 0, src := GstElement.audiotestsrc 0,
        srcpad := GstPad.src (GstElement.audiotestsrc 0),
        currentMixerPad := GstPad.request 0, passed_buffers := 0 } ∧
    ((0 : Nat) : Int) * PASS_BUFFERS ≤ INT_MAX ∧
    21 / (0 * 7 + 1) = 21 ∧
    rotations (run next_serial (main next_serial zero_stack) (List.replicate 21 0)).gst
      = rotations (main next_serial zero_stack).gst + 21 / (0 * 7 + 1) :=
  ⟨by decide, by decide, by decide,
    (C2_rotation_count next_serial (main next_serial zero_stack) 0 0
      { thread_num := 0, src := GstElement.audiotestsrc 0,
        srcpad := GstPad.src (GstElement.audiotestsrc 0),
        currentMixerPad := GstPad.request 0, passed_buffers := 0 }
      (by decide) rfl (by decide) rfl 21).1⟩

/-! ## C10: the rotation period of the code -/

/-- C10 (as stated, refuted): for `thread_num = 306783379 ≥ 0` the product
`thread_num * PASS_BUFFERS` is `2147483653`, above `INT_MAX`; the 32-bit product the
hook compares with is negative, so with the counter at 0 the first invocation
rotates, while `floor(1 / (306783379 * 7 + 1))` is 0. -/
theorem C10_counterexample :
    INT_MAX < (306783379 : Int) * PASS_BUFFERS ∧
    int_mul 306783379 PASS_BUFFERS = -2147483643 ∧
    rotations (deliver next_serial 1
      ({ thread_num := 306783379, src := GstElement.audiotestsrc 306783379,
         srcpad := GstPad.src (GstElement.audiotestsrc 306783379),
         currentMixerPad := GstPad.request 0, passed_buffers := 0 },
       (main next_serial zero_stack).gst)).2
      = rotations (main next_serial zero_stack).gst + 1 ∧
    1 / (306783379 * PASS_BUFFERS.toNat + 1) = 0 := by
  decide

/-- C10 (amended): for a binding with `thread_num = t ≥ 0` such that
`t * PASS_BUFFERS` fits an `int`, and counter 0, `n` consecutive invocations of the
hook make exactly `floor(n / (t * PASS_BUFFERS + 1))` rotations; the counter stays
within `[0, t * PASS_BUFFERS]`; an invocation that rotates leaves the counter at 0
instead of incrementing it; and for `t = 0` every invocation rotates and the counter
stays 0. -/
theorem C10_rotation_period (alloc : Allocator) (td : ThreadData) (g : Gst) (t : Nat)
    (ht : td.thread_num = t) (hfit : (t : Int) * PASS_BUFFERS ≤ INT_MAX)
    (h0 : td.passed_buffers = 0) (n : Nat) :
    rotations (deliver alloc n (td, g)).2
      = rotations g + n / (t * PASS_BUFFERS.toNat + 1) ∧
    0 ≤ (deliver alloc n (td, g)).1.passed_buffers ∧
    (deliver alloc n (td, g)).1.passed_buffers ≤ t * PASS_BUFFERS ∧
    (rotations (deliver alloc (n + 1) (td, g)).2 = rotations (deliver alloc n (td, g)).2 + 1 →
      (deliver alloc (n + 1) (td, g)).1.passed_buffers = 0 ∧
      (deliver alloc (n + 1) (td, g)).1.passed_buffers
        ≠ (deliver alloc n (td, g)).1.passed_buffers + 1) ∧
    (t = 0 → rotations (deliver alloc n (td, g)).2 = rotations g + n ∧
      (deliver alloc n (td, g)).1.passed_buffers = 0 ∧
      rotations (deliver alloc (n + 1) (td, g)).2
        = rotations (deliver alloc n (td, g)).2 + 1) := by
  obtain ⟨hth, hpb, hrot⟩ := deliver_spec alloc td g t ht hfit h0 n
  have hrot2 := (deliver_spec alloc td g t ht hfit h0 (n + 1)).2.2
  have hlt : n % (t * 7 + 1) < t * 7 + 1 := Nat.mod_lt n (Nat.succ_pos (t * 7))
  have hK : PASS_BUFFERS.toNat = 7 := rfl
  refine ⟨by rw [hrot, hK], by rw [hpb]; omega, ?_, ?_, ?_⟩
  · rw [hpb]
    simp only [PASS_BUFFERS]
    omega
  · intro hstep
    have hr : ¬ (deliver alloc n (td, g)).1.passed_buffers
        < int_mul (deliver alloc n (td, g)).1.thread_num PASS_BUFFERS := by
      intro hlt2
      have := rotations_count alloc _ (deliver alloc n (td, g)).2 hlt2
      simp only [deliver] at hstep
      omega
    have hz : (deliver alloc (n + 1) (td, g)).1.passed_buffers = 0 := by
      simp [deliver, event_probe_cb_rotate alloc _ (deliver alloc n (td, g)).2 hr]
    refine ⟨hz, ?_⟩
    rw [hz, hpb]
    omega
  · intro ht0
    subst ht0
    simp only [Nat.zero_mul, Nat.zero_add, Nat.mod_one, Nat.div_one] at hpb hrot hrot2
    refine ⟨hrot, by simpa using hpb, ?_⟩
    rw [hrot2, hrot]
    omega

/-- C10 (amended) at a concrete input: the binding of source 1 (`thread_num = 1`)
after 20 invocations: `floor(20 / 8) = 2` rotations. -/
theorem C10_rotation_period_witness :
    ((1 : Nat) : Int) * PASS_BUFFERS ≤ INT_MAX ∧
    20 / (1 * PASS_BUFFERS.toNat + 1) = 2 ∧
    rotations (deliver next_serial 20
      ({ thread_num := 1, src := GstElement.audiotestsrc 1,
         srcpad := GstPad.src (GstElement.audiotestsrc 1),
         currentMixerPad := GstPad.request 1, passed_buffers := 0 },
       (main next_serial zero_stack).gst)).2
      = rotations (main next_serial zero_stack).gst + 20 / (1 * PASS_BUFFERS.toNat + 1) :=
  ⟨by decide, by decide,
    (C10_rotation_period next_serial
      { thread_num := 1, src := GstElement.audiotestsrc 1,
        srcpad := GstPad.src (GstElement.audiotestsrc 1),
        currentMixerPad := GstPad.request 1, passed_buffers := 0 }
      (main next_serial zero_stack).gst 1 rfl (by decide) rfl 20).1⟩

/-! ## C8: the counter at the moment of a rotation -/

theorem int_mul_small (t : Int) (h0 : 0 ≤ t) (h2 : t ≤ 2) :
    int_mul t PASS_BUFFERS = t * PASS_BUFFERS := by
  apply int_mul_of_fits <;> unfold PASS_BUFFERS <;> first | unfold INT_MIN | unfold INT_MAX
  · omega
  · omega

theorem counter_main (alloc : Allocator) (stack : Nat → ThreadData)
    (hz : ∀ i, i < NUM_THREADS → (stack i).passed_buffers = 0) :
    ∀ td ∈ (main alloc stack).thread_data,
      (0 ≤ td.thread_num ∧ td.thread_num ≤ 2) ∧ 0 ≤ td.passed_buffers ∧
      td.passed_buffers ≤ td.thread_num * PASS_BUFFERS := by
  have h0 := hz 0 (by decide)
  have h1 := hz 1 (by decide)
  have h2 := hz 2 (by decide)
  intro td htd
  simp only [main, NUM_THREADS, List.range, List.range.loop, List.foldl, main_loop_body,
    setup_thread, List.nil_append, List.cons_append, List.mem_cons, List.mem_singleton,
    List.not_mem_nil, or_false] at htd
  rcases htd with h | h | h <;> subst h <;> simp [h0, h1, h2, PASS_BUFFERS]

theorem counter_probe (alloc : Allocator) (p : Program) (k : Nat)
    (h : ∀ td ∈ p.thread_data, (0 ≤ td.thread_num ∧ td.thread_num ≤ 2) ∧
      0 ≤ td.passed_buffers ∧ td.passed_buffers ≤ td.thread_num * PASS_BUFFERS) :
    ∀ td ∈ (probe alloc p k).thread_data, (0 ≤ td.thread_num ∧ td.thread_num ≤ 2) ∧
      0 ≤ td.passed_buffers ∧ td.passed_buffers ≤ td.thread_num * PASS_BUFFERS := by
  cases hk : p.thread_data[k]? with
  | none => rw [probe_none alloc p k hk]; exact h
  | some b =>
    obtain ⟨hb1, hb2, hb3⟩ := h b (List.getElem?_mem hk)
    have hmul := int_mul_small b.thread_num hb1.1 hb1.2
    intro td htd
    by_cases hlt : b.passed_buffers < int_mul b.thread_num PASS_BUFFERS
    · rw [probe_count alloc p k b hk hlt] at htd
      rw [hmul] at hlt
      rcases List.mem_or_eq_of_mem_set htd with hm | he
      · exact h td hm
      · subst he
        exact ⟨hb1, by simp only; omega, by simp only; omega⟩
    · obtain ⟨g3, -, htd2, -, -⟩ := probe_rotate alloc p k b hk hlt
      rw [htd2] at htd
      rcases List.mem_or_eq_of_mem_set htd with hm | he
      · exact h td hm
      · subst he
        refine ⟨hb1, by simp, ?_⟩
        simp only [PASS_BUFFERS] at *
        omega

theorem counter_run (alloc : Allocator) (p : Program) (ks : List Nat)
    (h : ∀ td ∈ p.thread_data, (0 ≤ td.thread_num ∧ td.thread_num ≤ 2) ∧
      0 ≤ td.passed_buffers ∧ td.passed_buffers ≤ td.thread_num * PASS_BUFFERS) :
    ∀ td ∈ (run alloc p ks).thread_data, (0 ≤ td.thread_num ∧ td.thread_num ≤ 2) ∧
      0 ≤ td.passed_buffers ∧ td.passed_buffers ≤ td.thread_num * PASS_BUFFERS := by
  induction ks generalizing p with
  | nil => exact h
  | cons k ks ih => exact ih _ (counter_probe alloc p k h)

/-- C8 (as stated, refuted).  First, with the counters at 0 at start-up: after 7
units of source 1 its counter is 7, the very value `1 * PASS_BUFFERS` the hook
compares it with, and the next unit rotates; the counter is not below that value.
Second, `main` leaves `passed_buffers` uninitialised: if the memory holds 100 there,
the first unit of source 0 rotates with the counter at 100, outside `[0, 7)`. -/
theorem C8_counterexample :
    (((run next_serial (main next_serial zero_stack) (List.replicate 7 1)).thread_data.map
        fun td => (td.thread_num, td.passed_buffers)) = [(0, 0), (1, 7), (2, 0)] ∧
      rotations (run next_serial (main next_serial zero_stack) (List.replicate 8 1)).gst
        = rotations (run next_serial (main next_serial zero_stack) (List.replicate 7 1)).gst + 1 ∧
      ¬ ((7 : Int) < 1 * PASS_BUFFERS)) ∧
    (((main next_serial (stale_stack 100)).thread_data.map
        fun td => (td.thread_num, td.passed_buffers)) = [(0, 100), (1, 100), (2, 100)] ∧
      rotations (probe next_serial (main next_serial (stale_stack 100)) 0).gst
        = rotations (main next_serial (stale_stack 100)).gst + 1 ∧
      ¬ ((100 : Int) < (0 + 1) * PASS_BUFFERS)) := by
  decide

/-- C8 (amended): when the counters are 0 at start-up, in every state reached from
the state built by `main`, whenever the hook of a binding performs a rotation, the
counter equals `thread_num * PASS_BUFFERS` immediately before (so it lies in
`[0, thread_num * PASS_BUFFERS]`, below `(thread_num + 1) * PASS_BUFFERS`), and is 0
immediately after. -/
theorem C8_counter_at_rotation (alloc : Allocator) (stack : Nat → ThreadData)
    (hz : ∀ i, i < NUM_THREADS → (stack i).passed_buffers = 0) (ks : List Nat) (k : Nat)
    (td : ThreadData)
    (hk : (run alloc (main alloc stack) ks).thread_data[k]? = some td)
    (hrot : rotations (probe alloc (run alloc (main alloc stack) ks) k).gst
      = rotations (run alloc (main alloc stack) ks).gst + 1) :
    td.passed_buffers = td.thread_num * PASS_BUFFERS ∧
    0 ≤ td.passed_buffers ∧
    td.passed_buffers < (td.thread_num + 1) * PASS_BUFFERS ∧
    ((probe alloc (run alloc (main alloc stack) ks) k).thread_data[k]?).map
      (fun b => b.passed_buffers) = some 0 := by
  obtain ⟨h1, h2, h3⟩ := counter_run alloc _ ks (counter_main alloc stack hz) td
    (List.getElem?_mem hk)
  have hmul := int_mul_small td.thread_num h1.1 h1.2
  have hr : ¬ td.passed_buffers < int_mul td.thread_num PASS_BUFFERS := by
    intro hlt
    rw [probe_count alloc _ k td hk hlt] at hrot
    simp at hrot
  have hlen : k < (run alloc (main alloc stack) ks).thread_data.length := by
    rcases List.getElem?_eq_some.mp hk with ⟨h, -⟩
    exact h
  obtain ⟨g3, -, htd, -, -⟩ := probe_rotate alloc _ k td hk hr
  rw [hmul] at hr
  refine ⟨?_, h2, ?_, ?_⟩
  · omega
  · simp only [PASS_BUFFERS] at *
    omega
  · rw [htd]
    simp [List.getElem?_set_self, hlen]

/-- C8 (amended) at a concrete input: source 1 after 7 of its units, counters 0
at start-up; its 8th unit rotates with the counter at 7. -/
theorem C8_counter_at_rotation_witness :
    (run next_serial (main next_serial zero_stack) [1, 1, 1, 1, 1, 1, 1]).thread_data[1]? = some
      { thread_num := 1, src := GstElement.audiotestsrc 1,
        srcpad := GstPad.src (GstElement.audiotestsrc 1),
        currentMixerPad := GstPad.request 1, passed_buffers := 7 } ∧
    (7 : Int) = 1 * PASS_BUFFERS :=
  ⟨by decide,
    (C8_counter_at_rotation next_serial zero_stack (fun _ _ => rfl) [1, 1, 1, 1, 1, 1, 1] 1
      { thread_num := 1, src := GstElement.audiotestsrc 1,
        srcpad := GstPad.src (GstElement.audiotestsrc 1),
        currentMixerPad := GstPad.request 1, passed_buffers := 7 }
      (by decide) (by decide)).1⟩

end Repro
